import Mathlib

/-!
Shallow embedding of the search-as-you-type widget in `src/App.tsx`
(repository `interview-react`), together with theorems settling the
spec claims about its filter, suggestion, width and throttling logic.

JavaScript strings are modelled as `List Char`; `===` on strings is
propositional equality; `Array.prototype.filter`, `String.prototype.trim`,
`String.prototype.includes` and `String.prototype.substring` are embedded
as executable list functions below.
-/

namespace InterviewReact

/-- A JavaScript string, modelled as its sequence of characters. -/
abbrev Str := List Char

/-- The `Service` record fetched from `/api/services` (`src/App.tsx`,
interface `Service`): `{ id: string; name: string }`. -/
structure Service where
  id : Str
  name : Str
deriving DecidableEq, Repr

/-! ## Embeddings of the JavaScript string primitives used by the widget -/

/-- JS `a || b` on strings: `b` when `a` is falsy (the empty string), else `a`. -/
def jsOrStr (a b : Str) : Str :=
  if a = [] then b else a

/-- JS `s.substring(0, n)` for a non-negative `n`: the leading `n` characters,
clamped at the length of `s`. -/
def jsSubstringTo (s : Str) (n : Nat) : Str :=
  s.take n

/-- The JS `String.prototype.trim` whitespace class, restricted to the ASCII
whitespace characters (space, tab, line feed, carriage return, vertical tab,
form feed); only emptiness of the trimmed string matters to the widget. -/
def isJsSpace (c : Char) : Bool :=
  c == ' ' || c == '\t' || c == '\n' || c == '\r' || c == '\x0b' || c == '\x0c'

/-- JS `s.trim()`: remove leading and trailing whitespace. -/
def jsTrim (s : Str) : Str :=
  ((s.dropWhile isJsSpace).reverse.dropWhile isJsSpace).reverse

/-- Whether `p` is a leading run of `l` (boolean prefix test, used to build
the substring test below). -/
def strHasPrefix : Str → Str → Bool
  | [], _ => true
  | _ :: _, [] => false
  | c :: p, d :: l => c == d && strHasPrefix p l

/-- JS `hay.includes(needle)`: case-sensitive substring containment. -/
def jsIncludes (hay needle : Str) : Bool :=
  match hay with
  | [] => strHasPrefix needle []
  | _ :: t => strHasPrefix needle hay || jsIncludes t needle

/-! ## The filter (`ServiceSearch`, `src/App.tsx` lines 168-178)

```
const results = services.filter((s) => s.name.includes(serviceSearchInputValue));
if (serviceSearchInputValue.trim() !== "") { setFilteredServices(results); }
else { setFilteredServices([]); }
```
-/

/-- The value written to `filteredServices` by the recompute effect in
`ServiceSearch`, as a function of the committed query and the fetched list. -/
def computeFilteredServices (serviceSearchInputValue : Str) (services : List Service) :
    List Service :=
  let results := services.filter (fun s => jsIncludes s.name serviceSearchInputValue)
  if jsTrim serviceSearchInputValue ≠ [] then results else []

/-! ## The suggestion deriver (`FeaturefulSearchInput`, `src/App.tsx` lines 99-117)

```
const firstSearchItemText = filteredServices[0]?.name || "";
const isInputValueSubstrinOfFirstSearchItem =
  serviceSearchInputValue === firstSearchItemText.substring(0, serviceSearchInputValue.length);
const newPlaceholder = isInputValueSubstrinOfFirstSearchItem ? firstSearchItemText : "";
```
-/

/-- `filteredServices[0]?.name || ""`: the first filtered item's name, or the
empty string when the filtered list is empty (or that name is itself empty). -/
def firstSearchItemText (filteredServices : List Service) : Str :=
  jsOrStr ((filteredServices.head?.map Service.name).getD []) []

/-- The prefix test `serviceSearchInputValue ===
firstSearchItemText.substring(0, serviceSearchInputValue.length)`. -/
def isInputValueSubstrinOfFirstSearchItem (serviceSearchInputValue : Str)
    (filteredServices : List Service) : Prop :=
  serviceSearchInputValue =
    jsSubstringTo (firstSearchItemText filteredServices) serviceSearchInputValue.length

instance (q : Str) (l : List Service) :
    Decidable (isInputValueSubstrinOfFirstSearchItem q l) :=
  inferInstanceAs
    (Decidable (q = jsSubstringTo (firstSearchItemText l) q.length))

/-- The `newPlaceholder` passed to the (throttled) suggestion setter in the
effect at lines 113-117, as a function of the query and the filtered list. -/
def newPlaceholder (serviceSearchInputValue : Str) (filteredServices : List Service) : Str :=
  if isInputValueSubstrinOfFirstSearchItem serviceSearchInputValue filteredServices then
    firstSearchItemText filteredServices
  else []

/-- The same derivation with the first filtered item's name abstracted as `f`,
for claims quantifying over the query and that name independently. -/
def derivedSuggestion (q f : Str) : Str :=
  if q = jsSubstringTo f q.length then f else []

/-! ## Bridging lemmas -/

theorem strHasPrefix_iff (p l : Str) : strHasPrefix p l = true ↔ p <+: l := by
  induction p generalizing l with
  | nil => simp [strHasPrefix]
  | cons c p ih =>
    cases l with
    | nil => simp [strHasPrefix]
    | cons d t =>
      simp only [strHasPrefix, Bool.and_eq_true, beq_iff_eq, ih, List.cons_prefix_cons]

theorem jsIncludes_iff (hay needle : Str) : jsIncludes hay needle = true ↔ needle <:+: hay := by
  induction hay with
  | nil => simp [jsIncludes, strHasPrefix_iff, List.infix_nil]
  | cons c t ih =>
    simp only [jsIncludes, Bool.or_eq_true, strHasPrefix_iff, ih, List.infix_cons_iff]

theorem jsSubstring_eq_iff_prefix (q f : Str) : q = jsSubstringTo f q.length ↔ q <+: f := by
  constructor
  · intro h
    rw [h]
    exact List.take_prefix _ f
  · intro h
    exact List.prefix_iff_eq_take.mp h

theorem firstSearchItemText_eq (l : List Service) :
    firstSearchItemText l = (l.head?.map Service.name).getD [] := by
  unfold firstSearchItemText jsOrStr
  split <;> simp_all

/-! ## The input width rule (`FeaturefulSearchInput`, `src/App.tsx` lines 126-137)

```
const shouldInputExpand =
  fakeSpanDomWidth === "0px" || suggestionInputPlaceholder.length === 0;
...
style={{ width: shouldInputExpand ? "100%" : fakeSpanDomWidth }}
```
-/

/-- The CSS string `"0px"` that the expand decision compares the measured
width against. -/
def cssZeroPx : Str := "0px".toList

/-- The CSS string `"100%"`; also the initial (unmeasured) value of
`fakeSpanDomWidth` in `SearchServiceProvider`. -/
def cssFullWidth : Str := "100%".toList

/-- `shouldInputExpand` from `FeaturefulSearchInput`. -/
def shouldInputExpand (fakeSpanDomWidth suggestionInputPlaceholder : Str) : Prop :=
  fakeSpanDomWidth = cssZeroPx ∨ suggestionInputPlaceholder.length = 0

instance (w s : Str) : Decidable (shouldInputExpand w s) :=
  inferInstanceAs (Decidable (w = cssZeroPx ∨ s.length = 0))

/-- The `width` style actually rendered on the editable input:
`shouldInputExpand ? "100%" : fakeSpanDomWidth`. -/
def renderedInputWidth (fakeSpanDomWidth suggestionInputPlaceholder : Str) : Str :=
  if shouldInputExpand fakeSpanDomWidth suggestionInputPlaceholder then cssFullWidth
  else fakeSpanDomWidth

/-! ## The fetch effect (`ServiceSearch`, `src/App.tsx` lines 162-166)

```
useEffect(() => {
  fetch("/api/services?zoneId=1").then((res) => res.json().then((s) => setServices(s)));
}, [setServices]);
```

The effect runs once per mount (its only dependency, the `useState` setter,
is referentially stable), issues the single `fetch`, and the continuation
passed to `.then` writes the parsed body to `services`; there is no `.catch`
and no retry, so a rejected promise leaves the state untouched.
-/

/-- The state relevant to the fetch effect: the `services` state cell plus a
log of the HTTP requests issued. -/
structure FetchModelState where
  services : List Service
  requestsSent : List Str
deriving DecidableEq, Repr

/-- The endpoint requested on mount. -/
def servicesEndpoint : Str := "/api/services?zoneId=1".toList

/-- The state of `SearchServiceProvider` right after mount, before any user
input: `services` initialised to `[]` by `useState`, and the mount effect
having issued its single fetch. -/
def mountedFetchState : FetchModelState :=
  { services := [], requestsSent := [servicesEndpoint] }

/-- Resolution of the fetch: on a successful response the parsed body replaces
`services` wholesale; on failure the missing `.catch` means nothing runs, so
the state is unchanged and no further request is issued. -/
def resolveFetch (st : FetchModelState) : Except Unit (List Service) → FetchModelState
  | .ok body => { st with services := body }
  | .error _ => st

/-! ## The rate-limiting gates

`src/App.tsx` wraps three setters in lodash `_.throttle`:
line 60 `throttledSetFakeSpanDomWidth` (120ms), line 90
`throttledSetServiceSearchInputValue` (120ms), lines 105-111
`throttledSetSuggestionInputPlaceholder` (500ms).
-/

/-- Wait of the measured-width gate (`_.throttle(..., 120)`, line 60). -/
def fakeSpanGateMs : Nat := 120

/-- Wait of the query gate (`_.throttle(..., 120)`, line 90). -/
def queryGateMs : Nat := 120

/-- Wait of the suggestion gate (`_.throttle(..., 500)`, lines 105-111). -/
def suggestionGateMs : Nat := 500

/-- Modelled from the spec: lodash's `_.throttle` implementation is an
external dependency whose source is not in this repository, so the gate is
modelled from §5 of the spec: a leading+trailing throttle in which the first
call of a window is delivered immediately, later calls inside the window are
coalesced keeping only the most recent, and the coalesced call is delivered
when the window elapses; consecutive deliveries are at least the gate's
interval apart. `nextFree` is the earliest time the next delivery may happen
and `pending` holds the coalesced trailing call, if any. -/
structure GateState (α : Type) where
  nextFree : Nat
  pending : Option α
deriving DecidableEq, Repr

/-- A freshly created gate: no delivery has happened and nothing is pending. -/
def gateInit {α : Type} : GateState α := { nextFree := 0, pending := none }

/-- Deliver the pending trailing call if its window has elapsed by time `t`;
returns the new gate state and the deliveries (time, value) made. -/
def gateFlush {α : Type} (interval : Nat) (s : GateState α) (t : Nat) :
    GateState α × List (Nat × α) :=
  match s.pending with
  | none => (s, [])
  | some v =>
    if s.nextFree ≤ t then
      ({ nextFree := s.nextFree + interval, pending := none }, [(s.nextFree, v)])
    else (s, [])

/-- A call to the gated setter at time `t` with value `v`: any due trailing
delivery fires first; then the call is delivered immediately when outside the
suppression window (leading edge) or coalesced into `pending` otherwise. -/
def gateCall {α : Type} (interval : Nat) (s : GateState α) (t : Nat) (v : α) :
    GateState α × List (Nat × α) :=
  let fl := gateFlush interval s t
  if fl.1.nextFree ≤ t then
    ({ nextFree := t + interval, pending := none }, fl.2 ++ [(t, v)])
  else ({ fl.1 with pending := some v }, fl.2)

/-- Run a sequence of calls (in arrival order, timestamped) through the gate. -/
def gateRun {α : Type} (interval : Nat) : GateState α → List (Nat × α) → GateState α × List (Nat × α)
  | s, [] => (s, [])
  | s, (t, v) :: rest =>
    let c := gateCall interval s t v
    let r := gateRun interval c.1 rest
    (r.1, c.2 ++ r.2)

/-- All deliveries eventually made for a call sequence fed to a fresh gate:
the deliveries made while the calls arrive, followed by the final trailing
delivery of the still-pending call once its window elapses. -/
def gateDeliveries {α : Type} (interval : Nat) (calls : List (Nat × α)) : List (Nat × α) :=
  let r := gateRun interval (gateInit (α := α)) calls
  match r.1.pending with
  | none => r.2
  | some v => r.2 ++ [(r.1.nextFree, v)]

/-- The most recent value in a timestamped call list, with default `d` for the
empty list: the "last attempted value" of a call burst. -/
def lastValue {α : Type} (d : α) : List (Nat × α) → α
  | [] => d
  | (_, v) :: rest => lastValue v rest

/-! ## Gate lemmas -/

theorem gateCall_suppressed {α : Type} (interval nf t : Nat) (p : Option α) (v : α)
    (ht : t < nf) :
    gateCall interval ⟨nf, p⟩ t v = (⟨nf, some v⟩, []) := by
  have hnot : ¬ nf ≤ t := Nat.not_le.mpr ht
  cases p with
  | none => simp [gateCall, gateFlush, hnot]
  | some w => simp [gateCall, gateFlush, hnot]

theorem gateCall_leading {α : Type} (interval : Nat) (s : GateState α) (t : Nat) (v : α)
    (hp : s.pending = none) (hf : s.nextFree ≤ t) :
    gateCall interval s t v = (⟨t + interval, none⟩, [(t, v)]) := by
  simp [gateCall, gateFlush, hp, hf]

theorem gateRun_suppressed {α : Type} (interval nf : Nat) (p : Option α)
    (rest : List (Nat × α)) (h : ∀ q ∈ rest, q.1 < nf) :
    gateRun interval ⟨nf, p⟩ rest =
      (⟨nf, match rest with
            | [] => p
            | (_, v) :: tl => some (lastValue v tl)⟩, []) := by
  induction rest generalizing p with
  | nil => rfl
  | cons q tl ih =>
    obtain ⟨t, v⟩ := q
    have ht : t < nf := h (t, v) (List.mem_cons_self _ _)
    simp only [gateRun]
    rw [gateCall_suppressed interval nf t p v ht]
    rw [ih (some v) (fun r hr => h r (List.mem_cons_of_mem _ hr))]
    cases tl with
    | nil => rfl
    | cons r tl2 =>
      obtain ⟨u, w⟩ := r
      rfl

/-! ## Concrete data for witnesses (Scenario 1 of the spec) -/

/-- `{id:"1", name:"Haircut"}`. -/
def svcHaircut : Service := ⟨"1".toList, "Haircut".toList⟩

/-- `{id:"2", name:"Hairdye"}`. -/
def svcHairdye : Service := ⟨"2".toList, "Hairdye".toList⟩

/-- `{id:"3", name:"Pet Shop"}`. -/
def svcPetShop : Service := ⟨"3".toList, "Pet Shop".toList⟩

/-- The item list of the spec's Scenario 1. -/
def demoServices : List Service := [svcHaircut, svcHairdye]

/-- An item list exercising a query with interior/trailing whitespace. -/
def demoServicesWs : List Service := [svcHaircut, svcPetShop]

/-! ## Filter lemmas and claims -/

theorem mem_computeFilteredServices (q : Str) (l : List Service) (h : jsTrim q ≠ [])
    (s : Service) :
    s ∈ computeFilteredServices q l ↔ s ∈ l ∧ q <:+: s.name := by
  unfold computeFilteredServices
  rw [if_pos h, List.mem_filter, jsIncludes_iff]

/-- Claim C4: for every query whose trimmed form is non-empty, the filtered
list contains exactly the elements of the input list whose `name` contains the
query as a case-sensitive substring, and (being a sublist) the survivors keep
their relative order. -/
theorem computeFilteredServices_substring_filter (q : Str) (l : List Service)
    (h : jsTrim q ≠ []) :
    (∀ s : Service, s ∈ computeFilteredServices q l ↔ s ∈ l ∧ q <:+: s.name) ∧
    List.Sublist (computeFilteredServices q l) l := by
  refine ⟨mem_computeFilteredServices q l h, ?_⟩
  unfold computeFilteredServices
  rw [if_pos h]
  exact List.filter_sublist l

theorem computeFilteredServices_substring_filter_witness :
    jsTrim "Hair".toList ≠ [] ∧
    svcHaircut ∈ computeFilteredServices "Hair".toList demoServices ∧
    svcHairdye ∈ computeFilteredServices "Hair".toList demoServices ∧
    List.Sublist (computeFilteredServices "Hair".toList demoServices) demoServices := by
  have h := computeFilteredServices_substring_filter "Hair".toList demoServices (by decide)
  exact ⟨by decide, (h.1 svcHaircut).mpr ⟨by decide, by decide⟩,
    (h.1 svcHairdye).mpr ⟨by decide, by decide⟩, h.2⟩

/-- Claim C5: whenever the trimmed query is empty, the filtered list is empty,
whatever the item list. -/
theorem computeFilteredServices_blank_query (q : Str) (l : List Service)
    (h : jsTrim q = []) :
    computeFilteredServices q l = [] := by
  unfold computeFilteredServices
  rw [if_neg (fun hc => hc h)]

theorem computeFilteredServices_blank_query_witness :
    jsTrim " ".toList = [] ∧ computeFilteredServices " ".toList demoServices = [] :=
  ⟨by decide, computeFilteredServices_blank_query " ".toList demoServices (by decide)⟩

/-- Claim C10: for a query that is non-blank after trimming but contains
whitespace (so differs from its trimmed form), membership in the filtered list
is decided by substring containment of the untrimmed query; trimming is used
only for the emptiness gate, never inside the predicate. -/
theorem computeFilteredServices_untrimmed_query (q : Str) (l : List Service)
    (h1 : jsTrim q ≠ []) (_h2 : q ≠ jsTrim q) :
    ∀ s : Service, s ∈ computeFilteredServices q l ↔ s ∈ l ∧ q <:+: s.name :=
  mem_computeFilteredServices q l h1

theorem computeFilteredServices_untrimmed_query_witness :
    jsTrim "t ".toList ≠ [] ∧ "t ".toList ≠ jsTrim "t ".toList ∧
    svcPetShop ∈ computeFilteredServices "t ".toList demoServicesWs ∧
    svcHaircut ∉ computeFilteredServices "t ".toList demoServicesWs := by
  have h := computeFilteredServices_untrimmed_query "t ".toList demoServicesWs
    (by decide) (by decide)
  exact ⟨by decide, by decide, (h svcPetShop).mpr ⟨by decide, by decide⟩,
    fun hm => (by decide : ¬ ("t ".toList <:+: svcHaircut.name)) ((h svcHaircut).mp hm).2⟩

/-! ## Suggestion claims -/

/-- Claim C2: the newly derived suggestion equals the first filtered item's
name (`""` when the filtered list is empty) exactly when the query equals the
leading substring of that name of the query's length — equivalently, when the
query is a literal prefix of the name — and equals `""` otherwise. -/
theorem newPlaceholder_prefix_rule (q : Str) (l : List Service) :
    (newPlaceholder q l =
      if q <+: firstSearchItemText l then firstSearchItemText l else []) ∧
    (isInputValueSubstrinOfFirstSearchItem q l ↔ q <+: firstSearchItemText l) := by
  have h : isInputValueSubstrinOfFirstSearchItem q l ↔ q <+: firstSearchItemText l :=
    jsSubstring_eq_iff_prefix q (firstSearchItemText l)
  refine ⟨?_, h⟩
  unfold newPlaceholder
  by_cases hp : q <+: firstSearchItemText l
  · rw [if_pos (h.mpr hp), if_pos hp]
  · rw [if_neg (fun hc => hp (h.mp hc)), if_neg hp]

/-- Claim C3, counterexample: at the empty query and first-filtered-item name
"Haircut", the derived suggestion is "Haircut", not `""`, although the claim's
condition (prefix match AND non-empty query) fails — so "suggestion equals F
iff F starts with Q and Q is non-empty; otherwise ''" is false as stated. -/
theorem derivedSuggestion_empty_query_counterexample :
    derivedSuggestion [] "Haircut".toList = "Haircut".toList ∧
    "Haircut".toList ≠ ([] : Str) ∧
    ¬ (([] : Str) ≠ []) := by
  refine ⟨rfl, by decide, fun hc => hc rfl⟩

/-- Claim C3 (amended): the committed suggestion equals the first-filtered-item
name F whenever F starts with the query Q as a literal prefix — vacuously so
for the empty query — and equals `""` whenever F does not start with Q; the
original "and Q is non-empty" conjunct does not hold of the code. -/
theorem derivedSuggestion_prefix_rule (q f : Str) :
    (q <+: f → derivedSuggestion q f = f) ∧
    (¬ q <+: f → derivedSuggestion q f = []) := by
  have h : q = jsSubstringTo f q.length ↔ q <+: f := jsSubstring_eq_iff_prefix q f
  unfold derivedSuggestion
  constructor
  · intro hp
    rw [if_pos (h.mpr hp)]
  · intro hp
    rw [if_neg (fun hc => hp (h.mp hc))]

theorem derivedSuggestion_prefix_rule_witness :
    ("Hair".toList <+: "Haircut".toList ∧
      derivedSuggestion "Hair".toList "Haircut".toList = "Haircut".toList) ∧
    (¬ "Dye".toList <+: "Haircut".toList ∧
      derivedSuggestion "Dye".toList "Haircut".toList = []) :=
  ⟨⟨by decide, (derivedSuggestion_prefix_rule "Hair".toList "Haircut".toList).1 (by decide)⟩,
   ⟨by decide, (derivedSuggestion_prefix_rule "Dye".toList "Haircut".toList).2 (by decide)⟩⟩

/-- Claim C8: with an empty query the prefix test holds vacuously, so the
derived suggestion is exactly the first filtered item's name; in particular a
non-empty filtered list alongside an empty query (a transient state the
throttled writes allow) yields that item's full name, not `""`. -/
theorem newPlaceholder_empty_query_full_name (l : List Service) :
    isInputValueSubstrinOfFirstSearchItem [] l ∧
    newPlaceholder [] l = firstSearchItemText l ∧
    (∀ (s : Service) (rest : List Service),
      l = s :: rest → s.name ≠ [] → newPlaceholder [] l = s.name) := by
  have hm : isInputValueSubstrinOfFirstSearchItem [] l := rfl
  refine ⟨hm, ?_, ?_⟩
  · unfold newPlaceholder
    rw [if_pos hm]
  · rintro s rest rfl hs
    unfold newPlaceholder
    rw [if_pos hm]
    unfold firstSearchItemText jsOrStr
    simp [hs]

theorem newPlaceholder_empty_query_full_name_witness :
    demoServices = svcHaircut :: [svcHairdye] ∧ svcHaircut.name ≠ [] ∧
    newPlaceholder [] demoServices = "Haircut".toList :=
  ⟨rfl, by decide,
    (newPlaceholder_empty_query_full_name demoServices).2.2 svcHaircut [svcHairdye]
      rfl (by decide)⟩

/-! ## Width claims -/

/-- Claim C1, counterexample: at measured width "0px" with a non-empty
suggestion, the claim's "otherwise" clause predicts a rendered width of "0px"
(the measured width, which is neither the "100%" sentinel nor paired with an
empty suggestion), but the code renders "100%" — the expand test compares
against "0px", not the sentinel. -/
theorem renderedInputWidth_sentinel_counterexample :
    cssZeroPx ≠ cssFullWidth ∧ ("x".toList : Str) ≠ [] ∧
    renderedInputWidth cssZeroPx "x".toList = cssFullWidth ∧
    renderedInputWidth cssZeroPx "x".toList ≠ cssZeroPx := by
  refine ⟨by decide, by decide, ?_, ?_⟩
  · rw [renderedInputWidth,
      if_pos (show shouldInputExpand cssZeroPx "x".toList from Or.inl rfl)]
  · rw [renderedInputWidth,
      if_pos (show shouldInputExpand cssZeroPx "x".toList from Or.inl rfl)]
    decide

/-- Claim C1 (amended): the editable input's rendered width is "100%"
whenever the measured width is the "100%" sentinel, or the measured width is
"0px", or the suggestion is empty; in all remaining states it equals the
measured width. (The claim as stated omits the "0px" case, where the code
renders "100%" rather than the measured width.) -/
theorem renderedInputWidth_amended (w s : Str) :
    ((w = cssFullWidth ∨ w = cssZeroPx ∨ s = []) → renderedInputWidth w s = cssFullWidth) ∧
    (w ≠ cssFullWidth → w ≠ cssZeroPx → s ≠ [] → renderedInputWidth w s = w) := by
  constructor
  · rintro (rfl | rfl | rfl)
    · unfold renderedInputWidth
      split
      · rfl
      · rfl
    · rw [renderedInputWidth,
        if_pos (show shouldInputExpand cssZeroPx s from Or.inl rfl)]
    · rw [renderedInputWidth,
        if_pos (show shouldInputExpand w [] from Or.inr rfl)]
  · intro _ h2 h3
    rw [renderedInputWidth, if_neg]
    rintro (hc | hc)
    · exact h2 hc
    · exact h3 (List.length_eq_zero.mp hc)

theorem renderedInputWidth_amended_witness :
    (cssFullWidth = cssFullWidth ∨ cssFullWidth = cssZeroPx ∨ ("x".toList : Str) = []) ∧
    renderedInputWidth cssFullWidth "x".toList = cssFullWidth ∧
    ("42px".toList ≠ cssFullWidth ∧ "42px".toList ≠ cssZeroPx ∧ ("x".toList : Str) ≠ []) ∧
    renderedInputWidth "42px".toList "x".toList = "42px".toList :=
  ⟨Or.inl rfl, (renderedInputWidth_amended cssFullWidth "x".toList).1 (Or.inl rfl),
   ⟨by decide, by decide, by decide⟩,
   (renderedInputWidth_amended "42px".toList "x".toList).2 (by decide) (by decide) (by decide)⟩

/-- Claim C9: the expand decision holds exactly when the measured width is the
string "0px" or the suggestion is empty (never comparing against the "100%"
sentinel); in that case the rendered width is "100%", otherwise it is the
measured width; and the rendered width is never the string "0px". -/
theorem renderedInputWidth_zero_px_rule (w s : Str) :
    (shouldInputExpand w s ↔ (w = cssZeroPx ∨ s = [])) ∧
    ((w = cssZeroPx ∨ s = []) → renderedInputWidth w s = cssFullWidth) ∧
    (¬ (w = cssZeroPx ∨ s = []) → renderedInputWidth w s = w) ∧
    renderedInputWidth w s ≠ cssZeroPx := by
  have hiff : shouldInputExpand w s ↔ (w = cssZeroPx ∨ s = []) := by
    unfold shouldInputExpand
    rw [List.length_eq_zero]
  refine ⟨hiff, ?_, ?_, ?_⟩
  · intro h
    rw [renderedInputWidth, if_pos (hiff.mpr h)]
  · intro h
    rw [renderedInputWidth, if_neg (fun hc => h (hiff.mp hc))]
  · unfold renderedInputWidth
    split
    · decide
    · rename_i hne
      exact fun hc => hne (hiff.mpr (Or.inl hc))

theorem renderedInputWidth_zero_px_rule_witness :
    (cssZeroPx = cssZeroPx ∨ ("hi".toList : Str) = []) ∧
    renderedInputWidth cssZeroPx "hi".toList = cssFullWidth ∧
    ¬ ("42px".toList = cssZeroPx ∨ ("hi".toList : Str) = []) ∧
    renderedInputWidth "42px".toList "hi".toList = "42px".toList :=
  ⟨Or.inl rfl, (renderedInputWidth_zero_px_rule cssZeroPx "hi".toList).2.1 (Or.inl rfl),
   by decide,
   (renderedInputWidth_zero_px_rule "42px".toList "hi".toList).2.2.1 (by decide)⟩

/-! ## Fetch claim -/

/-- Claim C7: mounting issues exactly one request for the item list; a
successful resolution replaces `services` wholesale without issuing further
requests; a failed resolution leaves the whole state unchanged — so after a
failure on a fresh mount `services` is still `[]`, the request count is still
one (no retry), and no error field exists to record the failure. -/
theorem fetch_once_and_failure_silent :
    mountedFetchState.requestsSent.length = 1 ∧
    mountedFetchState.services = [] ∧
    (∀ (st : FetchModelState) (body : List Service),
      (resolveFetch st (Except.ok body)).services = body ∧
      (resolveFetch st (Except.ok body)).requestsSent = st.requestsSent) ∧
    (∀ (st : FetchModelState) (e : Unit), resolveFetch st (Except.error e) = st) ∧
    (resolveFetch mountedFetchState (Except.error ())).services = [] ∧
    (resolveFetch mountedFetchState (Except.error ())).requestsSent.length = 1 :=
  ⟨rfl, rfl, fun _ _ => ⟨rfl, rfl⟩, fun _ _ => rfl, rfl, rfl⟩

/-! ## Rate-limit claim -/

/-- Claim C6: the three gates wait 120ms, 120ms and 500ms respectively; and
for any burst of calls to a fresh gate that all arrive within a window shorter
than the gate's interval, the deliveries are exactly the leading call plus (if
any further call arrived) one trailing delivery a full interval later carrying
the burst's last value — so consecutive deliveries are at least one interval
apart and the final delivered value is the last attempted one. -/
theorem gate_rate_limit {α : Type} (interval t₁ : Nat) (v₁ : α) (rest : List (Nat × α))
    (_hpos : 0 < interval) (hwin : ∀ q ∈ rest, t₁ ≤ q.1 ∧ q.1 < t₁ + interval) :
    (fakeSpanGateMs = 120 ∧ queryGateMs = 120 ∧ suggestionGateMs = 500) ∧
    gateDeliveries interval ((t₁, v₁) :: rest) =
      ((t₁, v₁) :: match rest with
        | [] => []
        | _ :: _ => [(t₁ + interval, lastValue v₁ rest)]) ∧
    List.Chain' (fun a b => a.1 + interval ≤ b.1)
      (gateDeliveries interval ((t₁, v₁) :: rest)) ∧
    (gateDeliveries interval ((t₁, v₁) :: rest)).getLast?.map Prod.snd =
      some (lastValue v₁ rest) := by
  have hrun : gateRun interval (gateInit (α := α)) ((t₁, v₁) :: rest) =
      (⟨t₁ + interval, match rest with
        | [] => none
        | (_, v) :: tl => some (lastValue v tl)⟩, [(t₁, v₁)]) := by
    simp only [gateRun]
    rw [gateCall_leading interval gateInit t₁ v₁ rfl (Nat.zero_le t₁)]
    rw [gateRun_suppressed interval (t₁ + interval) none rest (fun q hq => (hwin q hq).2)]
    cases rest with
    | nil => rfl
    | cons r tl =>
      obtain ⟨u, w⟩ := r
      rfl
  refine ⟨⟨rfl, rfl, rfl⟩, ?_, ?_, ?_⟩
  · unfold gateDeliveries
    rw [hrun]
    cases rest with
    | nil => rfl
    | cons r tl =>
      obtain ⟨u, w⟩ := r
      rfl
  · unfold gateDeliveries
    rw [hrun]
    cases rest with
    | nil => exact List.chain'_singleton _
    | cons r tl =>
      obtain ⟨u, w⟩ := r
      exact List.chain'_cons.mpr ⟨Nat.le_refl _, List.chain'_singleton _⟩
  · unfold gateDeliveries
    rw [hrun]
    cases rest with
    | nil => rfl
    | cons r tl =>
      obtain ⟨u, w⟩ := r
      rfl

theorem gate_rate_limit_witness :
    (0 < suggestionGateMs ∧
      ∀ q ∈ [((10 : Nat), 'b'), (400, 'c')], (0 : Nat) ≤ q.1 ∧ q.1 < 0 + suggestionGateMs) ∧
    gateDeliveries suggestionGateMs [(0, 'a'), (10, 'b'), (400, 'c')] =
      [(0, 'a'), (500, 'c')] :=
  ⟨⟨by decide, by decide⟩,
    (gate_rate_limit suggestionGateMs 0 'a' [(10, 'b'), (400, 'c')]
      (by decide) (by decide)).2.1⟩
